import Mathlib

/-!
Verification of the weaver/twitcher process-execution engine.

Shallow embedding of the parts of the code base relevant to the claims:
the remote-process execute template and its helpers
(`weaver/processes/wps_process_base.py`), the WPS output URL/path mapping
(`weaver/wps/utils.py`), the job record (`weaver/datatype.py`), the
CWL-to-WPS I/O conversion and progress remapping
(`weaver/processes/wps_package.py`), the data-source resolver
(`twitcher/processes/sources.py`) and the WPS-1 output extraction
(`twitcher/wps_restapi/processes/processes.py`).

Python strings are modelled by `String`; Python `str.replace` /
`str.startswith` / slicing are given explicit executable models with the
exact Python semantics (replace every non-overlapping occurrence from the
left, prefix test, drop by character count).  The filesystem is modelled
as the list of paths for which `os.path.isfile` returns true.
-/

/-- Model of Python `str.replace` on character lists: replace every
non-overlapping occurrence of `pat` from the left.  `fuel` bounds the
recursion by the length of the scanned list (each step consumes at least
one character, so `fuel = l.length` is always enough). -/
def pyReplaceAux (pat rep : List Char) : Nat → List Char → List Char
  | 0, l => l
  | _ + 1, [] => []
  | fuel + 1, c :: cs =>
    if pat ≠ [] ∧ pat.isPrefixOf (c :: cs) then
      rep ++ pyReplaceAux pat rep fuel ((c :: cs).drop pat.length)
    else
      c :: pyReplaceAux pat rep fuel cs

/-- Model of Python `str.replace(pat, rep)` (replace all occurrences). -/
def pyReplace (s pat rep : String) : String :=
  ⟨pyReplaceAux pat.data rep.data s.data.length s.data⟩

/-- Model of Python `str.startswith(pre)`. -/
def pyStartsWith (s pre : String) : Bool :=
  pre.data.isPrefixOf s.data

/-- Model of Python slicing `s[n:]`. -/
def pyDrop (s : String) (n : Nat) : String :=
  ⟨s.data.drop n⟩

/-- Model of Python `len(s)`. -/
def pyLen (s : String) : Nat :=
  s.data.length

instance {ε α : Type} [DecidableEq ε] [DecidableEq α] : DecidableEq (Except ε α) := fun
  | .error e, .error e' =>
    if h : e = e' then .isTrue (by rw [h]) else .isFalse (by intro hh; cases hh; exact h rfl)
  | .error _, .ok _ => .isFalse (by intro h; cases h)
  | .ok _, .error _ => .isFalse (by intro h; cases h)
  | .ok a, .ok a' =>
    if h : a = a' then .isTrue (by rw [h]) else .isFalse (by intro hh; cases hh; exact h rfl)

/-- WPS output settings: results of `get_wps_output_dir` and
`get_wps_output_url` (`weaver/wps/utils.py`). -/
structure WpsSettings where
  wpsOutputDir : String
  wpsOutputUrl : String
deriving Repr, DecidableEq

/-- Model of `os.path.isfile`: the filesystem is the list of existing
regular-file paths. -/
def isfile (fs : List String) (path : String) : Bool :=
  fs.contains path

/-- Embedding of `map_wps_output_location` (`weaver/wps/utils.py`,
lines 184-206).  `none` models the Python `return None`. -/
def map_wps_output_location (reference : String) (fs : List String)
    (st : WpsSettings) (reverse : Bool) (exists_ : Bool) : Option String :=
  if reverse ∧ pyStartsWith reference st.wpsOutputDir then
    let wps_out_ref := pyReplace reference st.wpsOutputDir st.wpsOutputUrl
    if ¬exists_ ∨ isfile fs wps_out_ref then some wps_out_ref else none
  else if ¬reverse ∧ pyStartsWith reference st.wpsOutputUrl then
    let wps_out_ref := pyReplace reference st.wpsOutputUrl st.wpsOutputDir
    if ¬exists_ ∨ isfile fs wps_out_ref then some wps_out_ref else none
  else
    none

/-!
## Remote-process execute template (`weaver/processes/wps_process_base.py`)
-/

/-- Embedding of `REMOTE_JOB_PROGRESS_PREPARE` (line 38). -/
def REMOTE_JOB_PROGRESS_PREPARE : Nat := 2

/-- Embedding of `REMOTE_JOB_PROGRESS_READY` (line 39). -/
def REMOTE_JOB_PROGRESS_READY : Nat := 5

/-- Embedding of `REMOTE_JOB_PROGRESS_STAGE_IN` (line 40). -/
def REMOTE_JOB_PROGRESS_STAGE_IN : Nat := 10

/-- The format-inputs/outputs progress constant (source line 41, value 12). -/
def REMOTE_JOB_PROGRESS_FORMAT : Nat := 12

/-- Embedding of `REMOTE_JOB_PROGRESS_EXECUTE` (line 42). -/
def REMOTE_JOB_PROGRESS_EXECUTE : Nat := 15

/-- Embedding of `REMOTE_JOB_PROGRESS_MONITOR` (line 43). -/
def REMOTE_JOB_PROGRESS_MONITOR : Nat := 20

/-- Embedding of `REMOTE_JOB_PROGRESS_RESULTS` (line 44). -/
def REMOTE_JOB_PROGRESS_RESULTS : Nat := 85

/-- Embedding of `REMOTE_JOB_PROGRESS_STAGE_OUT` (line 45). -/
def REMOTE_JOB_PROGRESS_STAGE_OUT : Nat := 90

/-- Embedding of `REMOTE_JOB_PROGRESS_CLEANUP` (line 46). -/
def REMOTE_JOB_PROGRESS_CLEANUP : Nat := 95

/-- Embedding of `REMOTE_JOB_PROGRESS_COMPLETED` (line 47). -/
def REMOTE_JOB_PROGRESS_COMPLETED : Nat := 100

/-- Outcomes of the implementation-dependent hook points called by
`WpsProcessInterface.execute`.  A `false` / `none` entry models the hook
raising an exception; `monitorRes = some b` models `monitor` returning
the success boolean `b`. -/
structure ExecuteHooks where
  prepareOk : Bool
  stageInputsOk : Bool
  formatOk : Bool
  dispatchOk : Bool
  monitorRes : Option Bool
  getResultsOk : Bool
  stageResultsOk : Bool
deriving Repr, DecidableEq

/-- Trace semantics of `WpsProcessInterface.execute`
(`weaver/processes/wps_process_base.py`, lines 111-164): the list of
progress values published through `update_status`, in order, together
with whether the call returns normally (`true`) or raises (`false`).
The `try`/`except`/`finally` around `dispatch`/`monitor` publishes
`REMOTE_JOB_PROGRESS_CLEANUP` from its `finally` clause on both the
success and the failure path before control proceeds. -/
def executeTrace (h : ExecuteHooks) : List Nat × Bool :=
  let t := [REMOTE_JOB_PROGRESS_PREPARE]
  if ¬h.prepareOk then (t, false) else
  let t := t ++ [REMOTE_JOB_PROGRESS_READY, REMOTE_JOB_PROGRESS_STAGE_IN]
  if ¬h.stageInputsOk then (t, false) else
  let t := t ++ [REMOTE_JOB_PROGRESS_FORMAT]
  if ¬h.formatOk then (t, false) else
  let t := t ++ [REMOTE_JOB_PROGRESS_EXECUTE]
  if ¬h.dispatchOk then (t ++ [REMOTE_JOB_PROGRESS_CLEANUP], false) else
  let t := t ++ [REMOTE_JOB_PROGRESS_MONITOR]
  match h.monitorRes with
  | none => (t ++ [REMOTE_JOB_PROGRESS_CLEANUP], false)
  | some false => (t ++ [REMOTE_JOB_PROGRESS_CLEANUP], false)
  | some true =>
    let t := t ++ [REMOTE_JOB_PROGRESS_CLEANUP, REMOTE_JOB_PROGRESS_RESULTS]
    if ¬h.getResultsOk then (t, false) else
    let t := t ++ [REMOTE_JOB_PROGRESS_STAGE_OUT]
    if ¬h.stageResultsOk then (t, false) else
    (t ++ [REMOTE_JOB_PROGRESS_CLEANUP, REMOTE_JOB_PROGRESS_COMPLETED], true)

/-- Hooks of a fully successful run of the execute template. -/
def successHooks : ExecuteHooks :=
  ⟨true, true, true, true, some true, true, true⟩

/-- Embedding of `WpsProcessInterface.make_request`
(`weaver/processes/wps_process_base.py`, lines 238-247).  `resp k` is
the status code returned by the `k`-th call to `request_extra`; the
function returns the final status code, the number of requests issued
and the total seconds slept.  The recursive call passes `retry = False`
and leaves `status_code_mock` at its default `None`. -/
def make_request (resp : Nat → Nat) (k : Nat) (statusCodeMock : Option Nat)
    (retry : Bool) : Nat × Nat × Nat :=
  let s := resp k
  if s = 502 ∧ retry then
    -- `sleep(10)` then `self.make_request(method, url, False, **kwargs)`:
    -- the recursive call disables `retry` and leaves `status_code_mock`
    -- at `None`, so its own mock test is a no-op and it issues exactly
    -- one request; the call is inlined here at `retry = False`.
    let inner := resp (k + 1)
    let s := if inner = 502 ∧ statusCodeMock.isSome then statusCodeMock.getD inner else inner
    (s, 2, 10)
  else
    let s := if s = 502 ∧ statusCodeMock.isSome then statusCodeMock.getD s else s
    (s, 1, 0)

/-- Embedding of `WpsProcessInterface.host_file`
(`weaver/processes/wps_process_base.py`, lines 249-256).  `realpath`
models `os.path.realpath` (symlink/`..` resolution done by the OS).
`Except.error` models the `raise Exception(...)`. -/
def host_file (fileName : String) (realpath : String → String)
    (st : WpsSettings) : Except String String :=
  let fileName := realpath (pyReplace fileName "file://" "")
  if ¬pyStartsWith fileName st.wpsOutputDir then
    Except.error "Cannot host files outside of the output path"
  else
    Except.ok (pyReplace fileName st.wpsOutputDir st.wpsOutputUrl)

/-- The `OPENSEARCH_LOCAL_FILE_SCHEME` constant.
Modelled from the spec: the constant is declared in
`weaver/processes/constants.py` / `twitcher/processes/wps_process.py`,
neither of which is under `src/`; the spec calls it "an internal URI
scheme used to pass already-local files between EMS and ADES".  The
claims settled here do not depend on its literal value. -/
def OPENSEARCH_LOCAL_FILE_SCHEME : String := "opensearchfile"

/-- A CWL workflow input value: a mapping carrying a `location` key, or
any other (literal) value. -/
inductive WfItem where
  | loc (location : String)
  | lit (value : String)
deriving Repr, DecidableEq

/-- A workflow input value before normalization: a single item or a list
of items (`if not isinstance(workflow_input_value, list)`). -/
inductive WfVal where
  | one (item : WfItem)
  | many (items : List WfItem)
deriving Repr, DecidableEq

/-- The normalization of a workflow input value to a list of items. -/
def WfVal.items : WfVal → List WfItem
  | .one it => [it]
  | .many its => its

/-- An entry of the execute request body produced by `stage_inputs`:
`{"id": ..., "href": ...}` or `{"id": ..., "data": ...}`. -/
inductive ExecInput where
  | href (id : String) (href : String)
  | data (id : String) (value : String)
deriving Repr, DecidableEq

/-- Embedding of `WpsProcessInterface.stage_inputs`
(`weaver/processes/wps_process_base.py`, lines 328-353): build the
execute body entries, then rewrite `href` entries — an opensearch
local-file scheme prefix becomes `file` plus the remainder of the URL,
and a `file://` reference is passed through `host_file` (whose exception
propagates, aborting the staging). -/
def stage_inputs (workflowInputs : List (String × WfVal))
    (realpath : String → String) (st : WpsSettings) :
    Except String (List ExecInput) :=
  let body := workflowInputs.flatMap fun kv =>
    kv.2.items.map fun item =>
      match item with
      | .loc location => ExecInput.href kv.1 location
      | .lit v => ExecInput.data kv.1 v
  body.mapM fun e =>
    match e with
    | .href k h =>
      if pyStartsWith h (OPENSEARCH_LOCAL_FILE_SCHEME ++ "://") then
        Except.ok (ExecInput.href k ("file" ++ pyDrop h (pyLen OPENSEARCH_LOCAL_FILE_SCHEME)))
      else if pyStartsWith h "file://" then
        (host_file h realpath st).map (ExecInput.href k)
      else
        Except.ok e
    | .data _ _ => Except.ok e

/-!
## Job record (`weaver/datatype.py`)
-/

/-- The set of valid job status strings, `job_status_values`.
Modelled from the spec: `weaver/status.py` is not under `src/`; the spec
enumerates `status` as one of `accepted`, `running`, `succeeded`,
`failed`, `dismissed`, `exception`, `unknown` (§3, Job state). -/
def job_status_values : List String :=
  ["accepted", "running", "succeeded", "failed", "dismissed", "exception", "unknown"]

/-- The terminal job statuses of the spec state machine. -/
def terminal_status_values : List String :=
  ["succeeded", "failed", "dismissed"]

/-- The fields of the job record relevant to the status and log claims
(`weaver/datatype.py`, class `Job`). -/
structure Job where
  status : Option String
  logs : List String
deriving Repr, DecidableEq

/-- Embedding of `Job.status` getter (`weaver/datatype.py`, lines 239-242):
`self.get("status", STATUS_UNKNOWN)`. -/
def Job.getStatus (j : Job) : String :=
  j.status.getD "unknown"

/-- Embedding of the `Job.status` setter (`weaver/datatype.py`,
lines 244-254).  The value must be a string (always true in this model)
and must belong to `job_status_values`; otherwise a `ValueError` is
raised (`Except.error`).  No other check is performed. -/
def Job.setStatus (j : Job) (status : String) : Except String Job :=
  if ¬job_status_values.contains status then
    Except.error "Status is not valid for Job.status"
  else
    Except.ok { j with status := some status }

/-- Embedding of the consecutive-duplicate guard shared by
`Job.save_log` (`weaver/datatype.py`, lines 157-163) and the twitcher
`save_log` (`twitcher/wps_restapi/processes/processes.py`, lines 37-41):
append the formatted message only when the log list is empty or its last
entry differs from the message. -/
def append_log (logs : List String) (fmt_msg : String) : List String :=
  if logs = [] ∨ logs.getLast? ≠ some fmt_msg then logs ++ [fmt_msg] else logs

/-- Embedding of one `Job.save_log` call (`weaver/datatype.py`,
lines 142-165): the formatted messages of `log_msg` (one for a plain
message, one per error for a list of errors) are appended in order, each
through the duplicate guard. -/
def save_log (logs : List String) (fmt_msgs : List String) : List String :=
  fmt_msgs.foldl append_log logs

/-!
## Package progress remapping (`weaver/processes/wps_package.py`)
-/

/-- Embedding of `PACKAGE_PROGRESS_RUN_CWL` (line 79). -/
def PACKAGE_PROGRESS_RUN_CWL : ℚ := 10

/-- Embedding of `PACKAGE_PROGRESS_CWL_DONE` (line 80). -/
def PACKAGE_PROGRESS_CWL_DONE : ℚ := 95

/-- Embedding of `WpsPackage.map_progress`
(`weaver/processes/wps_package.py`, lines 1026-1028); Python `/` is true
division, modelled over `ℚ`. -/
def map_progress (progress range_min range_max : ℚ) : ℚ :=
  range_min + (progress * (range_max - range_min)) / 100

/-- Embedding of `WpsPackage.map_step_progress`
(`weaver/processes/wps_package.py`, lines 1030-1032). -/
def map_step_progress (step_index steps_total : ℕ) : ℚ :=
  map_progress (100 * (step_index : ℚ) / (steps_total : ℚ))
    PACKAGE_PROGRESS_RUN_CWL PACKAGE_PROGRESS_CWL_DONE

/-!
## Data-source resolver (`twitcher/processes/sources.py`)
-/

/-- One configured data source (`twitcher/processes/sources.py` schema):
`netloc` and `ades` are required; `rootdir` may be absent (`none` models
a missing key, whose access raises `KeyError`); `isDefault` models
`asbool(val.get("default", False))`. -/
structure DataSource where
  netloc : String
  ades : String
  rootdir : Option String
  isDefault : Bool
deriving Repr, DecidableEq

/-- The configured data sources: an insertion-ordered association list
of `name → DataSource` (Python dicts preserve insertion order). -/
abbrev DataSources := List (String × DataSource)

/-- Embedding of `get_default_data_source`
(`twitcher/processes/sources.py`, lines 69-76): the first source marked
default, else the first in insertion order (`none` models the
`StopIteration` on an empty mapping, which `fetch_data_sources`
precludes). -/
def get_default_data_source (data_sources : DataSources) : Option String :=
  match data_sources.find? (fun p => p.2.isDefault) with
  | some p => some p.1
  | none => data_sources.head?.map (fun p => p.1)

/-- The result of `urlparse(data_url)`: scheme, netloc and path. -/
structure ParsedUrl where
  scheme : String
  netloc : String
  path : String
deriving Repr, DecidableEq

/-- The `for src, val in data_sources.items()` loop of the opensearch
branch of `get_data_source_from_url`: return the first source whose
`rootdir` is a prefix of the path.  A source without a `rootdir` key
raises `KeyError`, which the surrounding broad `except` turns into the
default-source fallback; falling off the loop also falls through to the
default, so both outcomes are `none` here. -/
def findRootdirSource (data_sources : DataSources) (path : String) : Option String :=
  match data_sources with
  | [] => none
  | p :: rest =>
    match p.2.rootdir with
    | none => none
    | some r => if pyStartsWith path r then some p.1 else findRootdirSource rest path

/-- Embedding of `get_data_source_from_url`
(`twitcher/processes/sources.py`, lines 94-112). -/
def get_data_source_from_url (data_sources : DataSources) (u : ParsedUrl) :
    Option String :=
  if u.netloc ≠ "" then
    match data_sources.find? (fun p => p.2.netloc = u.netloc) with
    | some p => some p.1
    | none => get_default_data_source data_sources
  else if u.scheme = OPENSEARCH_LOCAL_FILE_SCHEME then
    match findRootdirSource data_sources u.path with
    | some src => some src
    | none => get_default_data_source data_sources
  else
    get_default_data_source data_sources

/-- Resolver following the specification wording for comparison with
`get_data_source_from_url`.  Modelled from the spec: "if scheme equals
the opensearch local-file scheme, match the longest `rootdir` prefix of
the path"; the netloc and default cases read as in the source. -/
def get_data_source_from_url_spec (data_sources : DataSources) (u : ParsedUrl) :
    Option String :=
  if u.netloc ≠ "" ∧ (data_sources.find? (fun p => p.2.netloc = u.netloc)).isSome then
    (data_sources.find? (fun p => p.2.netloc = u.netloc)).map (fun p => p.1)
  else if u.netloc = "" ∧ u.scheme = OPENSEARCH_LOCAL_FILE_SCHEME then
    let prefixMatches := data_sources.filter fun p =>
      match p.2.rootdir with
      | some r => pyStartsWith u.path r
      | none => false
    match prefixMatches.foldl
        (fun best p =>
          match best, p.2.rootdir with
          | none, _ => some p
          | some b, some r =>
            if pyLen r > pyLen (b.2.rootdir.getD "") then some p else best
          | some b, none => some b)
        none with
    | some p => some p.1
    | none => get_default_data_source data_sources
  else
    get_default_data_source data_sources

/-- Two data sources whose rootdirs are nested prefixes. -/
def nestedRootdirSources : DataSources :=
  [("src_a", ⟨"a.example.com", "http://ades-a", some "/data", false⟩),
   ("src_b", ⟨"b.example.com", "http://ades-b", some "/data/sub", false⟩)]

/-!
## CWL-to-WPS I/O conversion (`weaver/processes/wps_package.py`)
-/

/-- Embedding of `PACKAGE_BASE_TYPES` (line 63). -/
def PACKAGE_BASE_TYPES : List String :=
  ["string", "boolean", "float", "int", "integer", "long", "double"]

/-- Embedding of `PACKAGE_LITERAL_TYPES` (line 64). -/
def PACKAGE_LITERAL_TYPES : List String :=
  PACKAGE_BASE_TYPES ++ ["null", "Any"]

/-- Embedding of `PACKAGE_COMPLEX_TYPES` (line 65). -/
def PACKAGE_COMPLEX_TYPES : List String :=
  ["File", "Directory"]

/-- Embedding of `PACKAGE_ARRAY_ITEMS` (line 68). -/
def PACKAGE_ARRAY_ITEMS : List String :=
  PACKAGE_BASE_TYPES ++ PACKAGE_COMPLEX_TYPES

/-- Embedding of `PACKAGE_ARRAY_TYPES` (line 69): every item type suffixed with `[]`. -/
def PACKAGE_ARRAY_TYPES : List String :=
  PACKAGE_ARRAY_ITEMS.map (fun item => item ++ "[]")

/-- Embedding of `PACKAGE_CUSTOM_TYPES` (line 70). -/
def PACKAGE_CUSTOM_TYPES : List String :=
  ["enum"]

/-- Embedding of `PACKAGE_ARRAY_MAX_SIZE = six.MAXSIZE` (line 67). -/
def PACKAGE_ARRAY_MAX_SIZE : Nat := 2 ^ 63 - 1

/-- A Python scalar value, as used for enum symbols and defaults.
Python `bool` is a subclass of `int`, which matters for the
`isinstance(first_allow, six.integer_types)` test. -/
inductive PyLit where
  | pstr (s : String)
  | pint (n : Int)
  | pbool (b : Bool)
  | pfloat (num den : Int)
  | pnone
deriving Repr, DecidableEq

/-- Embedding of `type(e) is type(first)` on scalars: same Python type (constructor). -/
def PyLit.sameType : PyLit → PyLit → Bool
  | .pstr _, .pstr _ => true
  | .pint _, .pint _ => true
  | .pbool _, .pbool _ => true
  | .pfloat _ _, .pfloat _ _ => true
  | .pnone, .pnone => true
  | _, _ => false

/-- A mapping-valued CWL `type` field, restricted to the keys the
conversion inspects: `type`, `items` (a type name) and `symbols`.
`none` models an absent key. -/
structure CwlTypeObj where
  typ : Option String
  items : Option String
  symbols : Option (List PyLit)
deriving Repr, DecidableEq

/-- The `type` field of a package I/O: a type-name string or a mapping. -/
inductive CwlTypeVal where
  | tstr (s : String)
  | tobj (o : CwlTypeObj)
deriving Repr, DecidableEq

/-- A package I/O as consumed by `_cwl2wps_io`: `name`, `type`, and the
optional fields the conversion reads. -/
structure CwlIo where
  name : String
  typ : CwlTypeVal
  label : Option String
  doc : Option String
  default : Option PyLit
  format : Option String
  contents : Option String
deriving Repr, DecidableEq

/-- A package I/O with only name and type set. -/
def CwlIo.ofType (name : String) (typ : CwlTypeVal) : CwlIo :=
  ⟨name, typ, none, none, none, none, none⟩

/-- The errors a conversion can raise: `PackageTypeError` from the
array/enum validators and the unsupported-select branch, or the plain
`TypeError` of the not-a-string fallthrough (line 437). -/
inductive ConvErr where
  | packageTypeError (msg : String)
  | pyTypeError (msg : String)
deriving Repr, DecidableEq

/-- Embedding of `_is_cwl_array_type`
(`weaver/processes/wps_package.py`, lines 319-344).  A mapping with both
`items` and `type` keys must be `{type: array, items: <supported>}`;
a string of the form `T[]` has its element validated; anything else is
not an array. -/
def is_cwl_array_type (ioTyp : CwlTypeVal) : Except ConvErr (Bool × CwlTypeVal) :=
  match ioTyp with
  | .tobj o =>
    if o.items.isSome ∧ o.typ.isSome then
      if o.typ ≠ some "array" ∨ ¬PACKAGE_ARRAY_ITEMS.contains (o.items.getD "") then
        Except.error (.packageTypeError "Unsupported I/O array definition")
      else
        Except.ok (true, .tstr (o.items.getD ""))
    else
      Except.ok (false, .tobj o)
  | .tstr s =>
    if PACKAGE_ARRAY_TYPES.contains s then
      let elem := ⟨s.data.dropLast.dropLast⟩
      if ¬PACKAGE_ARRAY_ITEMS.contains elem then
        Except.error (.packageTypeError "Unsupported I/O array definition")
      else
        Except.ok (true, .tstr elem)
    else
      Except.ok (false, .tstr s)

/-- Embedding of `_is_cwl_enum_type`
(`weaver/processes/wps_package.py`, lines 347-381). -/
def is_cwl_enum_type (ioTyp : CwlTypeVal) :
    Except ConvErr (Bool × CwlTypeVal × Option (List PyLit)) :=
  match ioTyp with
  | .tstr s => Except.ok (false, .tstr s, none)
  | .tobj o =>
    if o.typ.isNone ∨ ¬PACKAGE_CUSTOM_TYPES.contains (o.typ.getD "") then
      Except.ok (false, .tobj o, none)
    else
      match o.symbols with
      | none => Except.error (.packageTypeError "Unsupported I/O enum definition")
      | some io_allow =>
        if io_allow.length < 1 then
          Except.error (.packageTypeError "Invalid I/O enum.symbols definition")
        else
          let first_allow := io_allow.headD .pnone
          if ¬io_allow.all (fun e => e.sameType first_allow) then
            Except.error (.packageTypeError "Ambiguous types in I/O enum.symbols definition")
          else
            match first_allow with
            | .pstr _ => Except.ok (true, .tstr "string", some io_allow)
            | .pfloat _ _ => Except.ok (true, .tstr "float", some io_allow)
            | .pint _ => Except.ok (true, .tstr "int", some io_allow)
            | .pbool _ => Except.ok (true, .tstr "int", some io_allow)
            | .pnone => Except.error (.packageTypeError "Unsupported I/O enum base type")

/-- Selection of the conversion direction (`WPS_INPUT` / `WPS_OUTPUT`). -/
inductive IoSelect where
  | input
  | output
deriving Repr, DecidableEq

/-- The WPS I/O produced by the conversion: a literal I/O with its
normalized data type, occurrence bounds, allowed values and mode, or a
complex I/O with its formats, reference flag and occurrence bounds. -/
inductive WpsIo where
  | literal (identifier : String) (dataType : String) (minOccurs maxOccurs : Nat)
      (allowedValues : Option (List PyLit))
  | complex (identifier : String) (formats : List String)
      (asReference : Option Bool) (minOccurs maxOccurs : Option Nat)
deriving Repr, DecidableEq

/-- The literal data-type normalization of `_cwl2wps_io`
(lines 441-448): `Any`, `null`, integer and float aliases. -/
def normalizeLiteralType (t : String) : String :=
  let t := if t = "Any" then "anyvalue" else t
  let t := if t = "null" then "novalue" else t
  let t := if t = "int" ∨ t = "integer" ∨ t = "long" then "integer" else t
  if t = "float" ∨ t = "double" then "float" else t

/-- Embedding of `DefaultFormat = Format(mime_type="text/plain")` (line 111). -/
def DefaultFormat : String := "text/plain"

/-- Embedding of `_cwl2wps_io` (`weaver/processes/wps_package.py`,
lines 385-485): array conversion, enum conversion, the not-a-string
`TypeError` fallthrough, then the literal branch
(`is_enum or io_type in PACKAGE_LITERAL_TYPES`) and the complex
catch-all `else` branch. -/
def cwl2wps (ioInfo : CwlIo) (ioSelect : IoSelect) : Except ConvErr WpsIo := do
  let io_name := ioInfo.name
  let (is_array, arrayElem) ← is_cwl_array_type ioInfo.typ
  let io_type := if is_array then arrayElem else ioInfo.typ
  let io_max_occurs := if is_array then PACKAGE_ARRAY_MAX_SIZE else 1
  let (is_enum, enumType, enumAllow) ← is_cwl_enum_type ioInfo.typ
  let io_type := if is_enum then enumType else io_type
  let io_allow := if is_enum then enumAllow else none
  match io_type with
  | .tobj _ =>
    Except.error (.pyTypeError "I/O type has not been properly decoded")
  | .tstr t =>
    if is_enum ∨ PACKAGE_LITERAL_TYPES.contains t then
      Except.ok (.literal io_name (normalizeLiteralType t) 1 io_max_occurs io_allow)
    else
      let formats := [ioInfo.format.getD DefaultFormat]
      match ioSelect with
      | .output =>
        let as_reference :=
          if t = "Directory" then some true
          else if t = "File" then some (¬ioInfo.contents.isSome)
          else none
        Except.ok (.complex io_name formats as_reference none none)
      | .input =>
        Except.ok (.complex io_name formats none (some 1) (some io_max_occurs))

/-!
## WPS-1 output extraction (`twitcher/wps_restapi/processes/processes.py`)
-/

/-- A scalar element of a parsed JSON array. -/
inductive PyAtom where
  | astr (s : String)
  | anum (n : Int)
  | abool (b : Bool)
  | anull
deriving Repr, DecidableEq

/-- A parsed JSON value, as produced by `json.loads`.  Arrays are
restricted to scalar elements, which covers every value the extraction
logic distinguishes (the qualifying arrays are arrays of reference
strings). -/
inductive PyJson where
  | jstr (s : String)
  | jnum (n : Int)
  | jlist (elems : List PyAtom)
  | jobj
  | jnull
deriving Repr, DecidableEq

/-- Model of `owslib.wps.is_reference` on a parsed JSON array element: a
string holding an `http(s)://` URL (external collaborator of the
repository; the in-repo guard `str(ref).startswith("http")` subsumes
this for every element the claims exercise). -/
def is_reference : PyAtom → Bool
  | .astr s => pyStartsWith s "http://" ∨ pyStartsWith s "https://"
  | _ => false

/-- Embedding of `str(ref).startswith("http")` on a parsed JSON array element. -/
def pyStrStartsHttp : PyAtom → Bool
  | .astr s => pyStartsWith s "http"
  | _ => false

/-- An `owslib.wps.Output` as consumed by `_jsonify_output`:
`dataType` / `reference` / `mimeType` may be `None`, `data` is the list
of inline values.  `contentJson` models the JSON value that
`json.loads` yields on the output's referenced or inline content
(`none` models `json.loads` raising, e.g. after `_read_reference`
returned `None`). -/
structure OwsOutput where
  identifier : String
  title : String
  dataType : Option String
  reference : Option String
  data : List PyJson
  mimeType : Option String
  contentJson : Option PyJson
deriving Repr, DecidableEq

/-- Python truthiness of the `reference` attribute. -/
def truthyRef (r : Option String) : Bool :=
  match r with
  | some s => s ≠ ""
  | none => false

/-- Embedding of `_get_json_multiple_inputs`
(`twitcher/wps_restapi/processes/processes.py`, lines 71-98), taking the
effective `dataType` (already patched by the caller).  Returns the
parsed array when the content is a JSON list entirely made of
references, `none` otherwise; `Except.error` models the exception of
`json.loads` on unavailable content. -/
def get_json_multiple_inputs (effDataType : String) (mimeType : Option String)
    (contentJson : Option PyJson) : Except String (Option (List PyAtom)) :=
  if effDataType = "ComplexData" ∧ mimeType = some "application/json" then
    match contentJson with
    | none => Except.error "json.loads failed on output content"
    | some (.jlist json_data) =>
      if json_data.all is_reference then Except.ok (some json_data) else Except.ok none
    | some _ => Except.ok none
  else
    Except.ok none

/-- The job output entry built by `_jsonify_output`: `reference` and
`data` are present when the corresponding dictionary key was set
(`data = some .jnull` models the key set to `None`). -/
structure JsonOutput where
  identifier : String
  title : String
  dataType : String
  reference : Option String
  data : Option PyJson
  mimeType : Option (Option String)
deriving Repr, DecidableEq

/-- The effective `dataType` of an output after the
`output.dataType or datatype` fallback in `_jsonify_output`. -/
def eff_datatype (output : OwsOutput) (datatype : String) : String :=
  match output.dataType with
  | some d => if d ≠ "" then d else datatype
  | none => datatype

/-- Embedding of `_jsonify_output`
(`twitcher/wps_restapi/processes/processes.py`, lines 101-129):
`dataType` falls back to the process-description datatype; an output
with a truthy `reference` gets a `reference` key, plus a `data` key
holding the referenced JSON array when `_get_json_multiple_inputs`
returns a non-empty array of `http` references; otherwise a `data` key
holds `output.data[0]` or `None`; `mimeType` is added for
`ComplexData`. -/
def jsonify_output (output : OwsOutput) (datatype : String) :
    Except String JsonOutput := do
  let effDataType := eff_datatype output datatype
  let refData ←
    if truthyRef output.reference then do
      let json_array ← get_json_multiple_inputs effDataType output.mimeType output.contentJson
      let dataVal := match json_array with
        | some l => if l ≠ [] ∧ l.all pyStrStartsHttp then some (PyJson.jlist l) else none
        | none => none
      pure (output.reference, dataVal)
    else
      pure ((none : Option String), some (output.data.headD .jnull))
  Except.ok
    { identifier := output.identifier
      title := output.title
      dataType := effDataType
      reference := refData.1
      data := refData.2
      mimeType := if effDataType = "ComplexData" then some output.mimeType else none }

/-- An output referencing a JSON array of dataset references. -/
def jsonArrayOutput : OwsOutput :=
  { identifier := "out"
    title := "out"
    dataType := some "ComplexData"
    reference := some "http://remote/list.json"
    data := []
    mimeType := some "application/json"
    contentJson := some (.jlist [.astr "http://remote/a.nc", .astr "http://remote/b.nc"]) }

/-- Concrete settings and filesystem for the output-mapping round trip:
the local file `/tmp/out/f.txt` exists and corresponds to the public URL
`http://h/wpsout/f.txt`. -/
def roundtripSettings : WpsSettings := ⟨"/tmp/out", "http://h/wpsout"⟩

/-- The filesystem for the output-mapping round trip. -/
def roundtripFiles : List String := ["/tmp/out/f.txt"]

/-- Whether a conversion result is a complex I/O. -/
def isComplexResult : Except ConvErr WpsIo → Bool
  | .ok (.complex _ _ _ _ _) => true
  | _ => false

/-- Whether a conversion result is an error. -/
def isErrorResult : Except ConvErr WpsIo → Bool
  | .error _ => true
  | _ => false

/-- A mapping-valued type that the conversion accepts as an array:
`{type: array, items: <supported item>}`. -/
def supportedArrayObj (o : CwlTypeObj) : Bool :=
  o.items.isSome && o.typ.isSome && (o.typ == some "array") &&
    PACKAGE_ARRAY_ITEMS.contains (o.items.getD "")

/-- A mapping-valued type that the conversion accepts as an enum:
`{type: enum, symbols: [...]}` with a non-empty homogeneous symbol list
of strings, integers, booleans or floats (and no `items` key, which
would send the mapping into the array validation instead). -/
def supportedEnumObj (o : CwlTypeObj) : Bool :=
  !(o.items.isSome && o.typ.isSome) && o.typ.isSome &&
    PACKAGE_CUSTOM_TYPES.contains (o.typ.getD "") &&
    (match o.symbols with
     | none => false
     | some syms =>
       decide (1 ≤ syms.length) &&
         syms.all (fun e => e.sameType (syms.headD .pnone)) &&
         (match syms.headD .pnone with
          | .pnone => false
          | _ => true))

/-- The job output entry of the counterexample: both a reference and a
data field are present. -/
def jsonArrayResult : JsonOutput :=
  { identifier := "out", title := "out", dataType := "ComplexData"
    reference := some "http://remote/list.json"
    data := some (.jlist [.astr "http://remote/a.nc", .astr "http://remote/b.nc"])
    mimeType := some (some "application/json") }

/-- The condition under which `_jsonify_output` attaches a `data` field
to a referenced output: effective type `ComplexData` with
`application/json` mimetype, whose content parses to a non-empty JSON
array of references that all start with `http`. -/
def jsonArrayRefCond (output : OwsOutput) (datatype : String) : Bool :=
  (eff_datatype output datatype == "ComplexData") &&
    (output.mimeType == some "application/json") &&
    (match output.contentJson with
     | some (.jlist l) => l.all is_reference && !l.isEmpty && l.all pyStrStartsHttp
     | _ => false)

/-- A WPS output returned inline, for the field-presence witness. -/
def inlineOutput : OwsOutput :=
  { identifier := "o", title := "o", dataType := some "string", reference := none
    data := [.jstr "hello"], mimeType := none, contentJson := none }

/-- The job output entry extracted from `inlineOutput`. -/
def inlineResult : JsonOutput :=
  { identifier := "o", title := "o", dataType := "string"
    reference := none, data := some (.jstr "hello"), mimeType := none }

/-- Settings used by the file-hosting counterexample and witness. -/
def hostSettings : WpsSettings := ⟨"/out", "http://h/wpsout"⟩

/-!
## Theorems
-/

/-- C1: the claim states that every successful run of the remote-process
execute template reports its progress values in non-decreasing order.
The code publishes the cleanup progress (95) from the `finally` clause of
the dispatch/monitor block on the success path as well, before the
results progress (85): a successful run publishes
`[2, 5, 10, 12, 15, 20, 95, 85, 90, 95, 100]`, which is not
non-decreasing. -/
theorem executeTrace_success_not_monotonic :
    (executeTrace successHooks).2 = true ∧
    (executeTrace successHooks).1 = [2, 5, 10, 12, 15, 20, 95, 85, 90, 95, 100] ∧
    ¬ List.Chain' (· ≤ ·) (executeTrace successHooks).1 := by
  refine ⟨by decide, by decide, ?_⟩
  have htr : (executeTrace successHooks).1 = [2, 5, 10, 12, 15, 20, 95, 85, 90, 95, 100] := by
    decide
  rw [htr]
  intro hch
  simp only [List.chain'_cons, List.chain'_singleton, and_true] at hch
  omega

/-- C2: the claim states that mapping a URL under the output URL prefix
(whose local file exists) to its local path and back returns the original
URL.  The forward direction maps the URL to the existing local path, but
the reverse direction tests `os.path.isfile` on the mapped value — the
URL — which is not a local file, so the reverse mapping returns `None`
and the round trip does not return the original reference. -/
theorem map_wps_output_location_roundtrip_fails :
    map_wps_output_location "http://h/wpsout/f.txt" roundtripFiles roundtripSettings false true
      = some "/tmp/out/f.txt" ∧
    map_wps_output_location "/tmp/out/f.txt" roundtripFiles roundtripSettings true true
      = none ∧
    (map_wps_output_location "http://h/wpsout/f.txt" roundtripFiles roundtripSettings
        false true).bind
      (fun p => map_wps_output_location p roundtripFiles roundtripSettings true true)
      ≠ some "http://h/wpsout/f.txt" := by
  decide

/-- C7: with the retry flag enabled, a 502 response is followed by
exactly one retry after a 10-second sleep (two requests in total, even
when the retried request also returns 502); any other response, and any
request with the retry flag disabled, issues exactly one request with no
sleep. -/
theorem make_request_retries_502_once (resp : Nat → Nat) (k : Nat)
    (statusCodeMock : Option Nat) :
    (make_request resp k statusCodeMock true).2.1 = (if resp k = 502 then 2 else 1) ∧
    (make_request resp k statusCodeMock true).2.2 = (if resp k = 502 then 10 else 0) ∧
    (make_request resp k statusCodeMock false).2.1 = 1 ∧
    (make_request resp k statusCodeMock false).2.2 = 0 := by
  unfold make_request
  by_cases h : resp k = 502 <;> simp [h]

/-- The duplicate guard preserves the absence of equal consecutive log
entries. -/
theorem append_log_chain {logs : List String} (m : String)
    (h : List.Chain' (· ≠ ·) logs) :
    List.Chain' (· ≠ ·) (append_log logs m) := by
  unfold append_log
  split
  · rename_i hguard
    rcases hguard with hnil | hlast
    · subst hnil; simp
    · rw [List.chain'_append]
      refine ⟨h, List.chain'_singleton m, ?_⟩
      intro x hx y hy
      simp only [List.head?_cons, Option.mem_def, Option.some.injEq] at hy
      subst hy
      intro hxy
      exact hlast (by rw [← hxy]; exact hx)
  · exact h

/-- One `save_log` call preserves the absence of equal consecutive log
entries. -/
theorem save_log_chain {logs : List String} (msgs : List String)
    (h : List.Chain' (· ≠ ·) logs) :
    List.Chain' (· ≠ ·) (save_log logs msgs) := by
  induction msgs generalizing logs with
  | nil => exact h
  | cons m rest ih => exact ih (append_log_chain m h)

/-- C8: starting from the empty log list of a fresh job, any sequence of
log-saving operations (each appending its formatted messages through the
consecutive-duplicate guard) never produces two equal consecutive log
entries. -/
theorem save_log_no_consecutive_duplicates (ops : List (List String)) :
    List.Chain' (· ≠ ·) (ops.foldl save_log []) := by
  have hgen : ∀ (init : List String), List.Chain' (· ≠ ·) init →
      List.Chain' (· ≠ ·) (ops.foldl save_log init) := by
    induction ops with
    | nil => intro init h; exact h
    | cons op rest ih =>
      intro init h
      exact ih (save_log init op) (save_log_chain op h)
  exact hgen [] (by simp)

/-- C9: per-step progress is remapped by
`remap(progress, lo, hi) = lo + progress * (hi - lo) / 100`, and step `k`
(1-based) of `N` occupies the window
`[CWL_START + (k-1)*span, CWL_START + k*span]` with
`span = (CWL_DONE - CWL_START) / N`, `CWL_START = 10`, `CWL_DONE = 95`:
the step window bounds computed by `map_step_progress` at indices `k-1`
and `k` equal exactly those endpoints. -/
theorem map_step_progress_window (k N : ℕ) (hk : 1 ≤ k) (hN : k ≤ N) :
    (∀ p lo hi : ℚ, map_progress p lo hi = lo + p * (hi - lo) / 100) ∧
    map_step_progress (k - 1) N =
      PACKAGE_PROGRESS_RUN_CWL +
        ((k : ℚ) - 1) * ((PACKAGE_PROGRESS_CWL_DONE - PACKAGE_PROGRESS_RUN_CWL) / (N : ℚ)) ∧
    map_step_progress k N =
      PACKAGE_PROGRESS_RUN_CWL +
        (k : ℚ) * ((PACKAGE_PROGRESS_CWL_DONE - PACKAGE_PROGRESS_RUN_CWL) / (N : ℚ)) := by
  have hN1 : 1 ≤ N := le_trans hk hN
  have hN0 : (N : ℚ) ≠ 0 := by
    exact_mod_cast Nat.cast_ne_zero.mpr (by omega)
  have hcast : ((k - 1 : ℕ) : ℚ) = (k : ℚ) - 1 := by
    push_cast [Nat.cast_sub hk]; ring
  refine ⟨fun p lo hi => rfl, ?_, ?_⟩
  · unfold map_step_progress map_progress PACKAGE_PROGRESS_RUN_CWL PACKAGE_PROGRESS_CWL_DONE
    rw [hcast]
    field_simp
    ring
  · unfold map_step_progress map_progress PACKAGE_PROGRESS_RUN_CWL PACKAGE_PROGRESS_CWL_DONE
    field_simp
    ring

/-- Witness for the step-window theorem at `k = 2`, `N = 3`. -/
theorem map_step_progress_window_witness :
    map_step_progress (2 - 1) 3 =
      PACKAGE_PROGRESS_RUN_CWL +
        ((2 : ℚ) - 1) * ((PACKAGE_PROGRESS_CWL_DONE - PACKAGE_PROGRESS_RUN_CWL) / (3 : ℚ)) ∧
    map_step_progress 2 3 =
      PACKAGE_PROGRESS_RUN_CWL +
        (2 : ℚ) * ((PACKAGE_PROGRESS_CWL_DONE - PACKAGE_PROGRESS_RUN_CWL) / (3 : ℚ)) := by
  have h := map_step_progress_window 2 3 (by norm_num) (by norm_num)
  exact ⟨by exact_mod_cast h.2.1, by exact_mod_cast h.2.2⟩

/-- C3 counterexample: a job whose status is the terminal value
`succeeded` accepts the status update to `running` — the setter does not
reject transitions from terminal states. -/
theorem setStatus_allows_terminal_transition :
    Job.setStatus ⟨some "succeeded", []⟩ "running" = Except.ok ⟨some "running", []⟩ ∧
    "succeeded" ∈ terminal_status_values ∧
    (⟨some "succeeded", []⟩ : Job).getStatus = "succeeded" := by
  decide

/-- C3 (amended): the `Job.status` setter validates only that the new
value is one of the enumerated status strings — such a value is always
accepted and stored, regardless of the current (possibly terminal)
status, and any value outside the enumeration is rejected with an
error. -/
theorem setStatus_validates_membership_only (j : Job) (s : String) :
    (Job.setStatus j s = Except.ok { j with status := some s } ↔ s ∈ job_status_values) ∧
    ((∃ e, Job.setStatus j s = Except.error e) ↔ s ∉ job_status_values) := by
  unfold Job.setStatus
  by_cases h : s ∈ job_status_values
  · simp [h]
  · simp [h]

/-- C5 counterexample: for an opensearch local-file URL whose path is
prefixed by the rootdirs of two sources, the resolver returns the first
source in insertion order (`src_a`, rootdir `/data`), not the source
with the longest matching rootdir (`src_b`, rootdir `/data/sub`) that
the claim requires. -/
theorem get_data_source_first_match_not_longest :
    get_data_source_from_url nestedRootdirSources
      ⟨OPENSEARCH_LOCAL_FILE_SCHEME, "", "/data/sub/file.nc"⟩ = some "src_a" ∧
    get_data_source_from_url_spec nestedRootdirSources
      ⟨OPENSEARCH_LOCAL_FILE_SCHEME, "", "/data/sub/file.nc"⟩ = some "src_b" ∧
    ("src_a" : String) ≠ "src_b" := by
  decide

/-- C5 (amended): if the URL has a host matching the netloc of some
source, the first such source is returned; if the URL has no host and
its scheme is the opensearch local-file scheme, the first source in
insertion order whose rootdir is a prefix of the path is returned
(provided every earlier source has a rootdir that is not a prefix); in
every other case the default source is returned. -/
theorem find?_first_match {A : Type} (p : A → Bool) (pre post : List A) (a : A)
    (hpre : ∀ x ∈ pre, p x = false) (ha : p a = true) :
    (pre ++ a :: post).find? p = some a := by
  induction pre with
  | nil => simp [List.find?, ha]
  | cons x rest ih =>
    have hx := hpre x (by simp)
    simp only [List.cons_append, List.find?, hx]
    exact ih (fun y hy => hpre y (by simp [hy]))

theorem findRootdirSource_first_match (pre post : DataSources) (s : String)
    (v : DataSource) (r path : String)
    (hpre : ∀ p ∈ pre, ∃ rd, p.2.rootdir = some rd ∧ pyStartsWith path rd = false)
    (hv : v.rootdir = some r) (hr : pyStartsWith path r = true) :
    findRootdirSource (pre ++ (s, v) :: post) path = some s := by
  induction pre with
  | nil => simp [findRootdirSource, hv, hr]
  | cons p rest ih =>
    obtain ⟨rd, hrd, hns⟩ := hpre p (by simp)
    simp only [List.cons_append, findRootdirSource, hrd, hns, Bool.false_eq_true, if_false]
    exact ih (fun q hq => hpre q (by simp [hq]))

/-- C5 (amended): if the URL has a host matching the netloc of some
source, the first such source is returned; if the URL has no host and
its scheme is the opensearch local-file scheme, the first source in
insertion order whose rootdir is a prefix of the path is returned
(provided every earlier source carries a rootdir and none of those is a
prefix); in every other case the default source is returned (the first
source marked default, or the first in insertion order). -/
theorem get_data_source_from_url_resolution :
    (∀ (pre post : DataSources) (s : String) (v : DataSource) (u : ParsedUrl),
        u.netloc ≠ "" →
        (∀ p ∈ pre, p.2.netloc ≠ u.netloc) →
        v.netloc = u.netloc →
        get_data_source_from_url (pre ++ (s, v) :: post) u = some s) ∧
    (∀ (pre post : DataSources) (s : String) (v : DataSource) (r : String) (u : ParsedUrl),
        u.netloc = "" → u.scheme = OPENSEARCH_LOCAL_FILE_SCHEME →
        (∀ p ∈ pre, ∃ rd, p.2.rootdir = some rd ∧ pyStartsWith u.path rd = false) →
        v.rootdir = some r → pyStartsWith u.path r = true →
        get_data_source_from_url (pre ++ (s, v) :: post) u = some s) ∧
    (∀ (data_sources : DataSources) (u : ParsedUrl),
        u.netloc = "" → u.scheme ≠ OPENSEARCH_LOCAL_FILE_SCHEME →
        get_data_source_from_url data_sources u = get_default_data_source data_sources) := by
  refine ⟨?_, ?_, ?_⟩
  · intro pre post s v u hnet hpre hv
    have hfind : (pre ++ (s, v) :: post).find? (fun p => decide (p.2.netloc = u.netloc))
        = some (s, v) := by
      refine find?_first_match _ pre post (s, v) (fun x hx => ?_) (by simp [hv])
      simpa using hpre x hx
    simp [get_data_source_from_url, hnet, hfind]
  · intro pre post s v r u hnet hos hpre hv hr
    have hfind : findRootdirSource (pre ++ (s, v) :: post) u.path = some s :=
      findRootdirSource_first_match pre post s v r u.path hpre hv hr
    simp [get_data_source_from_url, hnet, hos, hfind]
  · intro data_sources u hnet hsch
    simp [get_data_source_from_url, hnet, hsch]

/-- Witness for the resolution theorem: the opensearch branch picks the
first prefix match. -/
theorem get_data_source_from_url_resolution_witness :
    get_data_source_from_url
      ([("src_a", ⟨"a.example.com", "http://ades-a", some "/data", false⟩)] ++
        ("src_b", ⟨"b.example.com", "http://ades-b", some "/other", false⟩) :: [])
      ⟨OPENSEARCH_LOCAL_FILE_SCHEME, "", "/other/f.nc"⟩ = some "src_b" := by
  refine get_data_source_from_url_resolution.2.1
    [("src_a", ⟨"a.example.com", "http://ades-a", some "/data", false⟩)] []
    "src_b" ⟨"b.example.com", "http://ades-b", some "/other", false⟩ "/other"
    ⟨OPENSEARCH_LOCAL_FILE_SCHEME, "", "/other/f.nc"⟩ rfl rfl ?_ rfl (by decide)
  intro p hp
  simp only [List.mem_singleton] at hp
  exact ⟨"/data", by rw [hp], by decide⟩

/-- C4 counterexample: the package I/O `{name: x, type: foobar}` has a
declared type that is not a base literal type, not a complex sentinel,
not an array form and not an enum form, yet the conversion does not
raise `PackageTypeError`: it silently coerces the unknown type into a
complex input. -/
theorem cwl2wps_unknown_string_coerced :
    cwl2wps (CwlIo.ofType "x" (.tstr "foobar")) .input
      = Except.ok (.complex "x" ["text/plain"] none (some 1) (some 1)) ∧
    PACKAGE_LITERAL_TYPES.contains "foobar" = false ∧
    PACKAGE_COMPLEX_TYPES.contains "foobar" = false ∧
    PACKAGE_ARRAY_TYPES.contains "foobar" = false ∧
    PACKAGE_CUSTOM_TYPES.contains "foobar" = false := by
  decide

/-- C4 (amended): a plain string type that is neither a literal type nor
an array form is silently coerced into a complex I/O (never an error),
while a mapping type that is neither a supported array form nor a
supported enum form does raise — though a `TypeError`, not necessarily
`PackageTypeError`. -/
theorem cwl2wps_unknown_type_behavior :
    (∀ (io : CwlIo) (s : String) (sel : IoSelect),
        io.typ = .tstr s →
        PACKAGE_LITERAL_TYPES.contains s = false →
        PACKAGE_ARRAY_TYPES.contains s = false →
        isComplexResult (cwl2wps io sel) = true) ∧
    (∀ (io : CwlIo) (o : CwlTypeObj) (sel : IoSelect),
        io.typ = .tobj o →
        supportedArrayObj o = false →
        supportedEnumObj o = false →
        isErrorResult (cwl2wps io sel) = true) := by
  constructor
  · intro io s sel htyp hlit harr
    have hlit' : s ∉ PACKAGE_LITERAL_TYPES := by simpa using hlit
    have harrRes : is_cwl_array_type (.tstr s) = .ok (false, .tstr s) := by
      simp only [is_cwl_array_type]
      rw [if_neg (by simpa using harr)]
    have henumRes : is_cwl_enum_type (.tstr s) = .ok (false, .tstr s, none) := by
      simp [is_cwl_enum_type]
    cases sel <;>
      simp [cwl2wps, htyp, harrRes, henumRes, Except.bind, bind, hlit', isComplexResult]
  · intro io o sel htyp harr henum
    cases harrRes : is_cwl_array_type (.tobj o) with
    | error e => simp [cwl2wps, htyp, harrRes, Except.bind, bind, isErrorResult]
    | ok resA =>
      obtain ⟨is_array, tA⟩ := resA
      have hAshape : (is_array = true ∧ supportedArrayObj o = true)
          ∨ (is_array = false ∧ tA = .tobj o ∧ ¬(o.items.isSome = true ∧ o.typ.isSome = true)) := by
        have hres := harrRes
        simp only [is_cwl_array_type] at hres
        by_cases hio : o.items.isSome = true ∧ o.typ.isSome = true
        · rw [if_pos hio] at hres
          split at hres
          · cases hres
          · rename_i hcond
            push_neg at hcond
            cases hres
            left
            refine ⟨rfl, ?_⟩
            simp only [supportedArrayObj, Bool.and_eq_true, beq_iff_eq]
            exact ⟨⟨⟨hio.1, hio.2⟩, hcond.1⟩, hcond.2⟩
        · rw [if_neg hio] at hres
          cases hres
          right
          exact ⟨rfl, rfl, hio⟩
      rcases hAshape with ⟨_, hsup⟩ | ⟨hfalse, htA, hio⟩
      · rw [hsup] at harr
        cases harr
      · subst hfalse
        subst htA
        cases henumRes : is_cwl_enum_type (.tobj o) with
        | error e =>
          simp [cwl2wps, htyp, harrRes, henumRes, Except.bind, bind, isErrorResult]
        | ok resE =>
          obtain ⟨is_enum, tE, allowE⟩ := resE
          have hEshape : (is_enum = true ∧ supportedEnumObj o = true)
              ∨ (is_enum = false ∧ tE = .tobj o) := by
            have hres := henumRes
            simp only [is_cwl_enum_type] at hres
            by_cases hC : o.typ.isNone = true ∨ ¬PACKAGE_CUSTOM_TYPES.contains (o.typ.getD "") = true
            · rw [if_pos hC] at hres
              cases hres
              right
              exact ⟨rfl, rfl⟩
            · rw [if_neg hC] at hres
              push_neg at hC
              obtain ⟨htypNone, hcustom⟩ := hC
              have hitems : (o.items.isSome && o.typ.isSome) = false := by
                revert hio
                cases o.items.isSome <;> cases o.typ.isSome <;> simp
              have htypIsSome : o.typ.isSome = true := by
                cases ht : o.typ with
                | none => rw [ht] at htypNone; simp at htypNone
                | some t => rfl
              cases hsym : o.symbols with
              | none =>
                simp only [hsym] at hres
                exact (Except.noConfusion hres)
              | some syms =>
                simp only [hsym] at hres
                split at hres
                · cases hres
                · rename_i hlen
                  split at hres
                  · cases hres
                  · rename_i hsame
                    rw [not_not] at hsame
                    split at hres <;> try cases hres
                    all_goals {
                      left
                      refine ⟨rfl, ?_⟩
                      simp only [supportedEnumObj, hsym, hitems, Bool.not_false,
                        htypIsSome, hcustom, Bool.true_and, Bool.and_eq_true,
                        decide_eq_true_eq]
                      rename_i hh
                      rw [htypIsSome] at hitems
                      refine ⟨⟨⟨by simp [hitems], trivial⟩, trivial⟩, ⟨by omega, hsame⟩, by rw [hh]⟩
                    }
          rcases hEshape with ⟨_, hsup⟩ | ⟨hfalse, htE⟩
          · rw [hsup] at henum
            cases henum
          · subst hfalse
            subst htE
            simp [cwl2wps, htyp, harrRes, henumRes, Except.bind, bind, isErrorResult]

/-- Witness for the unknown-type behavior theorem: a plain unknown
string type converts to a complex I/O, and a mapping type matching
neither the array nor the enum form errors out. -/
theorem cwl2wps_unknown_type_behavior_witness :
    isComplexResult (cwl2wps (CwlIo.ofType "x" (.tstr "foobar")) .input) = true ∧
    isErrorResult (cwl2wps (CwlIo.ofType "x" (.tobj ⟨some "record", none, none⟩)) .output) = true := by
  constructor
  · exact cwl2wps_unknown_type_behavior.1 (CwlIo.ofType "x" (.tstr "foobar")) "foobar" .input
      rfl (by decide) (by decide)
  · exact cwl2wps_unknown_type_behavior.2 (CwlIo.ofType "x" (.tobj ⟨some "record", none, none⟩))
      ⟨some "record", none, none⟩ .output rfl (by decide) (by decide)

/-- C6 counterexample: a WPS-1 output returned by reference, whose
reference points to a JSON array of dataset references, produces a job
output entry carrying both a `reference` field and a `data` field. -/
theorem jsonify_output_reference_and_data :
    jsonify_output jsonArrayOutput "ComplexData" = Except.ok jsonArrayResult ∧
    jsonArrayResult.reference.isSome = true ∧
    jsonArrayResult.data.isSome = true := by
  decide

/-- C6 (amended): a successfully extracted output entry has a
`reference` field exactly when the WPS output was returned by reference,
and a `data` field exactly when the output was returned inline or when
the referenced content is a non-empty JSON array of http references —
in the latter case both fields are present. -/
theorem jsonify_output_field_presence (output : OwsOutput) (datatype : String)
    (r : JsonOutput) (h : jsonify_output output datatype = Except.ok r) :
    r.reference.isSome = truthyRef output.reference ∧
    r.data.isSome = (!truthyRef output.reference || jsonArrayRefCond output datatype) := by
  unfold jsonify_output at h
  by_cases htr : truthyRef output.reference = true
  · have hrefSome : output.reference.isSome = true := by
      cases href : output.reference with
      | none => rw [href] at htr; simp [truthyRef] at htr
      | some sref => rfl
    rw [if_pos htr] at h
    by_cases hc : eff_datatype output datatype = "ComplexData" ∧
        output.mimeType = some "application/json"
    · cases hcj : output.contentJson with
      | none =>
        have hg : get_json_multiple_inputs (eff_datatype output datatype)
            output.mimeType output.contentJson
            = Except.error "json.loads failed on output content" := by
          simp only [get_json_multiple_inputs, hcj]
          rw [if_pos hc]
        rw [hg] at h
        simp only [Except.bind, bind] at h
        exact (Except.noConfusion h)
      | some j =>
        cases j with
        | jlist l =>
          by_cases har : l.all is_reference = true
          · have hg : get_json_multiple_inputs (eff_datatype output datatype)
                output.mimeType output.contentJson = Except.ok (some l) := by
              simp only [get_json_multiple_inputs, hcj]
              rw [if_pos hc, if_pos har]
            rw [hg] at h
            simp only [Except.bind, bind, pure, Except.pure, Except.ok.injEq] at h
            subst h
            by_cases hcond : l ≠ [] ∧ l.all pyStrStartsHttp = true
            · have hcondTrue : jsonArrayRefCond output datatype = true := by
                simp only [jsonArrayRefCond, hcj, hc.1, hc.2, beq_self_eq_true,
                  Bool.true_and, Bool.and_eq_true]
                refine ⟨⟨har, ?_⟩, hcond.2⟩
                cases l with
                | nil => exact absurd rfl hcond.1
                | cons a as => rfl
              simp only [if_pos hcond]
              exact ⟨by rw [hrefSome, htr], by simp [htr, hcondTrue]⟩
            · have hcondFalse : jsonArrayRefCond output datatype = false := by
                simp only [jsonArrayRefCond, hcj, hc.1, hc.2, beq_self_eq_true,
                  Bool.true_and]
                rcases Decidable.not_and_iff_or_not.mp hcond with hnil | hhttp
                · push_neg at hnil
                  subst hnil
                  simp
                · have hf : l.all pyStrStartsHttp = false := by
                    cases hb : l.all pyStrStartsHttp with
                    | true => exact absurd hb hhttp
                    | false => rfl
                  simp [hf]
              simp only [if_neg hcond]
              exact ⟨by rw [hrefSome, htr], by simp [htr, hcondFalse]⟩
          · have hg : get_json_multiple_inputs (eff_datatype output datatype)
                output.mimeType output.contentJson = Except.ok none := by
              simp only [get_json_multiple_inputs, hcj]
              rw [if_pos hc, if_neg har]
            rw [hg] at h
            simp only [Except.bind, bind, pure, Except.pure, Except.ok.injEq] at h
            subst h
            have hcondFalse : jsonArrayRefCond output datatype = false := by
              simp only [jsonArrayRefCond, hcj, hc.1, hc.2, beq_self_eq_true, Bool.true_and]
              have hf : l.all is_reference = false := by
                cases hb : l.all is_reference with
                | true => exact absurd hb har
                | false => rfl
              simp [hf]
            exact ⟨by rw [hrefSome, htr], by simp [htr, hcondFalse]⟩
        | jstr sj =>
          have hg : get_json_multiple_inputs (eff_datatype output datatype)
              output.mimeType output.contentJson = Except.ok none := by
            simp only [get_json_multiple_inputs, hcj]
            rw [if_pos hc]
          rw [hg] at h
          simp only [Except.bind, bind, pure, Except.pure, Except.ok.injEq] at h
          subst h
          exact ⟨by rw [hrefSome, htr], by simp [htr, jsonArrayRefCond, hcj]⟩
        | jnum nj =>
          have hg : get_json_multiple_inputs (eff_datatype output datatype)
              output.mimeType output.contentJson = Except.ok none := by
            simp only [get_json_multiple_inputs, hcj]
            rw [if_pos hc]
          rw [hg] at h
          simp only [Except.bind, bind, pure, Except.pure, Except.ok.injEq] at h
          subst h
          exact ⟨by rw [hrefSome, htr], by simp [htr, jsonArrayRefCond, hcj]⟩
        | jobj =>
          have hg : get_json_multiple_inputs (eff_datatype output datatype)
              output.mimeType output.contentJson = Except.ok none := by
            simp only [get_json_multiple_inputs, hcj]
            rw [if_pos hc]
          rw [hg] at h
          simp only [Except.bind, bind, pure, Except.pure, Except.ok.injEq] at h
          subst h
          exact ⟨by rw [hrefSome, htr], by simp [htr, jsonArrayRefCond, hcj]⟩
        | jnull =>
          have hg : get_json_multiple_inputs (eff_datatype output datatype)
              output.mimeType output.contentJson = Except.ok none := by
            simp only [get_json_multiple_inputs, hcj]
            rw [if_pos hc]
          rw [hg] at h
          simp only [Except.bind, bind, pure, Except.pure, Except.ok.injEq] at h
          subst h
          exact ⟨by rw [hrefSome, htr], by simp [htr, jsonArrayRefCond, hcj]⟩
    · have hg : get_json_multiple_inputs (eff_datatype output datatype)
          output.mimeType output.contentJson = Except.ok none := by
        simp only [get_json_multiple_inputs]
        rw [if_neg hc]
      rw [hg] at h
      simp only [Except.bind, bind, pure, Except.pure, Except.ok.injEq] at h
      subst h
      have hcondFalse : jsonArrayRefCond output datatype = false := by
        rcases Decidable.not_and_iff_or_not.mp hc with hdt | hmt
        · simp [jsonArrayRefCond, hdt]
        · simp [jsonArrayRefCond, hmt]
      exact ⟨by rw [hrefSome, htr], by simp [htr, hcondFalse]⟩
  · rw [if_neg htr] at h
    have htr' : truthyRef output.reference = false := by
      cases htrb : truthyRef output.reference with
      | true => exact absurd htrb htr
      | false => rfl
    simp only [Except.bind, bind, pure, Except.pure, Except.ok.injEq] at h
    subst h
    exact ⟨by simp [htr'], by simp [htr']⟩

/-- Witness for the field-presence theorem at the inline-data output. -/
theorem jsonify_output_field_presence_witness :
    inlineResult.reference.isSome = truthyRef inlineOutput.reference ∧
    inlineResult.data.isSome
      = (!truthyRef inlineOutput.reference || jsonArrayRefCond inlineOutput "string") :=
  jsonify_output_field_presence inlineOutput "string" inlineResult (by decide)

/-- C10 counterexample: hosting the local file `/out/out` (a file named
`out` at the root of the output directory `/out`) replaces **every**
occurrence of the output-directory string, not only the prefix: the
returned href is `http://h/wpsouthttp://h/wpsout` rather than the
prefix replacement `http://h/wpsout/out`. -/
theorem host_file_replaces_every_occurrence :
    host_file "file:///out/out" id hostSettings
      = Except.ok "http://h/wpsouthttp://h/wpsout" ∧
    "http://h/wpsouthttp://h/wpsout" ≠ "http://h/wpsout" ++ "/out" := by
  constructor
  · rfl
  · decide

/-- C10 (amended): staging an input whose `file://` reference resolves
outside the WPS output directory raises an exception (the staging
returns an error, so no href is ever produced), and staging one that
resolves inside the output directory returns the href obtained by
replacing every occurrence of the output-directory string with the
output-URL string (which is the prefix replacement whenever the
directory string occurs only once). -/
theorem stage_inputs_hosts_output_files (key loc : String)
    (realpath : String → String) (st : WpsSettings)
    (hos : pyStartsWith loc (OPENSEARCH_LOCAL_FILE_SCHEME ++ "://") = false)
    (hfile : pyStartsWith loc "file://" = true) :
    (pyStartsWith (realpath (pyReplace loc "file://" "")) st.wpsOutputDir = false →
      stage_inputs [(key, .one (.loc loc))] realpath st
        = Except.error "Cannot host files outside of the output path") ∧
    (pyStartsWith (realpath (pyReplace loc "file://" "")) st.wpsOutputDir = true →
      stage_inputs [(key, .one (.loc loc))] realpath st
        = Except.ok [ExecInput.href key
            (pyReplace (realpath (pyReplace loc "file://" ""))
              st.wpsOutputDir st.wpsOutputUrl)]) := by
  constructor
  · intro hout
    simp [stage_inputs, WfVal.items, List.mapM, List.mapM.loop, hos, hfile,
      host_file, hout, Except.map]
  · intro hin
    simp [stage_inputs, WfVal.items, List.mapM, List.mapM.loop, hos, hfile,
      host_file, hin, Except.map]

/-- Witness for the staging theorem: a file inside the output directory
is rewritten to its public URL, one outside aborts the staging. -/
theorem stage_inputs_hosts_output_files_witness :
    stage_inputs [("x", .one (.loc "file:///out/data/f.txt"))] id hostSettings
      = Except.ok [ExecInput.href "x" "http://h/wpsout/data/f.txt"] ∧
    stage_inputs [("y", .one (.loc "file:///elsewhere/f.txt"))] id hostSettings
      = Except.error "Cannot host files outside of the output path" := by
  constructor
  · have h := (stage_inputs_hosts_output_files "x" "file:///out/data/f.txt" id hostSettings
      (by decide) (by decide)).2 (by decide)
    exact h.trans (by decide)
  · exact (stage_inputs_hosts_output_files "y" "file:///elsewhere/f.txt" id hostSettings
      (by decide) (by decide)).1 (by decide)
